import Mathlib

/-!
Verification of the DHT sensor timing-capture-and-decode pipeline of
`src/sensors/rpi-nerve/DHT.h` / `DHT.cpp` (class `DHTReader`).

Shallow embedding conventions:
* Machine integers are `Nat` with explicit reductions where the width
  matters: the `uint16_t timings_[80]` slots store values `% 65536`, the
  `uint8_t data_[5]` bytes store values `% 256`, and the `uint32_t`
  statistics counters wrap `% 2 ^ 32`.
* `float temp_` / `float humidity_` are modelled as `ℚ`.  Every value the
  code puts in them is an integer below `2 ^ 16` divided by 10 (or an
  8-bit integer), and every comparison performed on them (`< 0`, `> 100`,
  `> 0`) is exact for IEEE single precision at those magnitudes, so the
  rational model coincides with the float code on all paths.
* The GPIO line (`bcm2835_gpio_lev`) is abstracted by a `LineEnv`: for
  each bounded busy-wait the environment supplies the number of polls
  until the awaited transition occurs (`delays`), and `ackDelay` plays
  the same role for the initial acknowledgement wait.  A line that never
  reaches the awaited state is any delay at or above the wait's bound,
  which yields identical observable behaviour.
* The `debug_` flag only controls `fprintf` diagnostics and the
  `lastState_` member is written by `reset` but never read; both are
  omitted.  `bitSyncDelay`/`byteSyncDelay` feed only debug prints and are
  omitted as well.
-/

set_option maxRecDepth 4000

namespace DHTReader

/-- Sensor variants, `enum DHTType` of DHT.h. -/
inductive DHTType where
  | DHT11
  | DHT22
  | AM2302
deriving DecidableEq, Repr

/-- Failure causes of one read.  In the C++ they exist as the distinct
`return false` sites (each with its own `fprintf`): the acknowledgement
wait timing out, a bit wait timing out, the checksum test failing, and
the DHT22 range tests failing. -/
inductive DHTError where
  | AckTimeout
  | BitTimeout
  | ChecksumMismatch
  | RangeError
deriving DecidableEq, Repr

/-- `DHTReader::NumTimings` (80 = 5 bytes * 8 bits * 2 transitions). -/
def NumTimings : Nat := 80

/-- `DHTReader::TimeoutCycles` (cycles before a bounded wait gives up). -/
def TimeoutCycles : Nat := 100000

/-- The `const` members of `DHTReader`.  `timeoutCycles` and
`lowHighCutoff` hold the values of the C++ accessors
`timeoutCycles() = TimeoutCycles * clockScale_` (a `uint32_t`) and
`lowHighCutoff() = 180 * clockScale_` (an `int`), already multiplied by
the configured clock scale and truncated to an integer. -/
structure DHTConfig where
  type_ : DHTType
  pin_ : Nat
  timeoutCycles : Nat
  lowHighCutoff : Nat
deriving DecidableEq, Repr

/-- The constructor `DHTReader(type, pin)` at the default
`clockScale = 1.0f`: `timeoutCycles() = 100000`, `lowHighCutoff() = 180`. -/
def mkConfig (t : DHTType) (pin : Nat) : DHTConfig :=
  ⟨t, pin, TimeoutCycles, 180⟩

/-- The mutable members of `DHTReader`.  `timings_` is `uint16_t[80]`
(entries kept `< 65536` by every write), `data_` is `uint8_t[5]`
(entries kept `< 256` by every write), the counters are `uint32_t`. -/
structure DHTState where
  timings_ : List Nat
  data_ : List Nat
  temp_ : ℚ
  humidity_ : ℚ
  readCount_ : Nat
  failureCount_ : Nat
deriving DecidableEq, Repr

/-- The state right after construction: the constructor initialises
`temp_(0), humidity_(0), readCount_(0), failureCount_(0)`.  The C++
leaves `timings_`/`data_` uninitialised until `reset()`; they are zero
here and are never consulted before `reset()` overwrites them. -/
def initState : DHTState :=
  ⟨List.replicate 80 0, List.replicate 5 0, 0, 0, 0, 0⟩

/-- `DHTReader::reset()`: zero `timings_` and `data_`, clear the reading.
(The C++ also sets the never-read `lastState_` and returns `true`.) -/
def resetState (s : DHTState) : DHTState :=
  { s with timings_ := List.replicate 80 0, data_ := List.replicate 5 0,
           temp_ := 0, humidity_ := 0 }

/-- One read's abstraction of the GPIO line: `ackDelay` is the number of
1-microsecond polls before the sensor pulls the line low in the
acknowledgement loop of `readTimings` (bound 200000); `delays.getD i 0`
is the number of busy-wait polls before the transition awaited by the
`i`-th of the 80 timed `waitForState` calls occurs. -/
structure LineEnv where
  ackDelay : Nat
  delays : List Nat
deriving Repr

/-- `DHTReader::waitForState(state)`:

    uint32_t counter = 0;
    while (bcm2835_gpio_lev(pin_) != state && ++counter < timeoutCycles());
    return counter;

For a line that first shows the awaited state on poll number `delay`
(0-based), the loop returns `0` when the state is already there, and
otherwise counts up and stops either at `delay` or when `++counter < tc`
fails, i.e. at `max tc 1` (the counter has already become 1 when the
bound is first tested, hence the `max` for the degenerate bound 0).  So
the returned counter is `min delay (max tc 1)`; the wait has hit its
bound exactly when `delay` is at least that. -/
def waitForState (tc delay : Nat) : Nat :=
  if delay = 0 then 0 else min delay (max tc 1)

/-- The timing-capture loop of `DHTReader::readTimings`:

    for (uint32_t i = 0; i < NumTimings; ++i) {
        timings_[i] = waitForState(i % 2 == 0);
        if (timings_[i] == timeoutCycles()) return false;
    }

compiled over its iteration sequence `is` (`timingIndices` below).  The
`uint16_t` store truncates the returned `uint32_t` counter `% 65536`,
and the subsequent comparison promotes the stored 16-bit value back to
`uint32_t`.  The awaited level `i % 2 == 0` is absorbed by `LineEnv`. -/
def readTimingsLoop (cfg : DHTConfig) (env : LineEnv) :
    List Nat → DHTState → Option DHTError × DHTState
  | [], s => (none, s)
  | i :: is, s =>
    let t := waitForState cfg.timeoutCycles (env.delays.getD i 0) % 65536
    let s' := { s with timings_ := s.timings_.set i t }
    if t = cfg.timeoutCycles then (some .BitTimeout, s')
    else readTimingsLoop cfg env is s'

/-- Iteration sequence of the capture loop: `i = 0, 1, ..., 79`. -/
def timingIndices : List Nat := List.range NumTimings

/-- `DHTReader::readTimings()`.  The trigger sequence only drives the
pin and sleeps; the acknowledgement loop

    while (bcm2835_gpio_lev(pin_) == true && ++count < timeout) usleep(1);
    if (count == timeout) return false;        // timeout = 200000

fails exactly when the line stays high for 200000 polls, i.e. when
`ackDelay ≥ 200000`.  The two discarded `waitForState` calls that skip
the first pulse change no state.  Then the 80 timed waits run. -/
def readTimings (cfg : DHTConfig) (env : LineEnv) (s : DHTState) :
    Option DHTError × DHTState :=
  if 200000 ≤ env.ackDelay then (some .AckTimeout, s)
  else readTimingsLoop cfg env timingIndices s

/-- The decode loop of `DHTReader::reconstructDataFromTimings`:

    for (uint32_t i = 1; i < NumTimings; i += 2) {
        bool bit = timings_[i] > lowHighCutoff();
        uint32_t bitOff = i / 2;
        uint32_t byteOff = bitOff / 8;
        data_[byteOff] = data_[byteOff] << 1 | bit;
    }

compiled over its iteration sequence (`dataIndices` below).  The
`uint8_t` store truncates `% 256`. -/
def reconstructLoop (cfg : DHTConfig) : List Nat → DHTState → DHTState
  | [], s => s
  | i :: is, s =>
    let bit : Nat := if cfg.lowHighCutoff < s.timings_.getD i 0 then 1 else 0
    let byteOff := i / 2 / 8
    let s' := { s with
      data_ := s.data_.set byteOff ((s.data_.getD byteOff 0 <<< 1 ||| bit) % 256) }
    reconstructLoop cfg is s'

/-- Iteration sequence of the decode loop: `i = 1, 3, ..., 79`. -/
def dataIndices : List Nat :=
  [1, 3, 5, 7, 9, 11, 13, 15, 17, 19, 21, 23, 25, 27, 29, 31, 33, 35, 37, 39,
   41, 43, 45, 47, 49, 51, 53, 55, 57, 59, 61, 63, 65, 67, 69, 71, 73, 75, 77, 79]

/-- `DHTReader::reconstructDataFromTimings()` (it always returns `true`,
so only the state transformation is modelled). -/
def reconstructDataFromTimings (cfg : DHTConfig) (s : DHTState) : DHTState :=
  reconstructLoop cfg dataIndices s

/-- `humidity_ = (data_[0] * 256 + data_[1]) / 10.0f` (DHT22/AM2302 path
of `parseData`). -/
def dht22Humidity (s : DHTState) : ℚ :=
  ((s.data_.getD 0 0 * 256 + s.data_.getD 1 0 : ℕ) : ℚ) / 10

/-- `((data_[2] & 0x7F) * 256 + data_[3]) / 10.0f`. -/
def dht22TempMagnitude (s : DHTState) : ℚ :=
  (((s.data_.getD 2 0 &&& 0x7F) * 256 + s.data_.getD 3 0 : ℕ) : ℚ) / 10

/-- `temp_` after `if (data_[2] & 0x80) temp_ *= -1;`. -/
def dht22Temp (s : DHTState) : ℚ :=
  if s.data_.getD 2 0 &&& 0x80 ≠ 0 then -dht22TempMagnitude s
  else dht22TempMagnitude s

/-- `DHTReader::parseData()`: checksum test, then per-variant value
interpretation, then (DHT22/AM2302 only) the `[0,100]` range tests.
`uint8_t checkSum = (data_[0] + data_[1] + data_[2] + data_[3]) & 0xFF`. -/
def parseData (cfg : DHTConfig) (s : DHTState) : Option DHTError × DHTState :=
  let checkByte := s.data_.getD 4 0
  let checkSum :=
    (s.data_.getD 0 0 + s.data_.getD 1 0 + s.data_.getD 2 0 + s.data_.getD 3 0) &&& 0xFF
  if checkByte ≠ checkSum then (some .ChecksumMismatch, s)
  else if cfg.type_ = .DHT11 then
    (none, { s with temp_ := (s.data_.getD 2 0 : ℚ), humidity_ := (s.data_.getD 0 0 : ℚ) })
  else
    let s' := { s with temp_ := dht22Temp s, humidity_ := dht22Humidity s }
    if dht22Temp s < 0 ∨ 100 < dht22Temp s then (some .RangeError, s')
    else if dht22Humidity s < 0 ∨ 100 < dht22Humidity s then (some .RangeError, s')
    else (none, s')

/-- The code's acceptance test of the Frame Validator:
`checkByte == checkSum` on the current `data_`. -/
def checksumOk (s : DHTState) : Prop :=
  s.data_.getD 4 0 =
    (s.data_.getD 0 0 + s.data_.getD 1 0 + s.data_.getD 2 0 + s.data_.getD 3 0) &&& 0xFF

instance (s : DHTState) : Decidable (checksumOk s) := by
  unfold checksumOk; infer_instance

/-- The pipeline of one `read()` without the statistics:
`reset() && readTimings() && reconstructDataFromTimings() && parseData()`,
with the error cause of the first failing stage. -/
def readE (cfg : DHTConfig) (env : LineEnv) (s : DHTState) :
    Option DHTError × DHTState :=
  match readTimings cfg env (resetState s) with
  | (some e, s1) => (some e, s1)
  | (none, s1) => parseData cfg (reconstructDataFromTimings cfg s1)

/-- `DHTReader::read()`:

    ++readCount_;
    bool success = reset() && readTimings() &&
                   reconstructDataFromTimings() && parseData();
    if (!success) failureCount_++;
    return success;

The `uint32_t` counters wrap `% 2 ^ 32`. -/
def read (cfg : DHTConfig) (env : LineEnv) (s : DHTState) : Bool × DHTState :=
  let s1 := { s with readCount_ := (s.readCount_ + 1) % 2 ^ 32 }
  match readE cfg env s1 with
  | (none, s2) => (true, s2)
  | (some _, s2) => (false, { s2 with failureCount_ := (s2.failureCount_ + 1) % 2 ^ 32 })

/-- `DHTReader::celsius()`: `assert(temp_ > 0.0f); return temp_;`.
An assertion failure (process abort) is `none`. -/
def celsius (s : DHTState) : Option ℚ :=
  if 0 < s.temp_ then some s.temp_ else none

/-- `DHTReader::humidity()`: `assert(humidity_ > 0.0f); return humidity_;`. -/
def humidity (s : DHTState) : Option ℚ :=
  if 0 < s.humidity_ then some s.humidity_ else none

/-- `DHTReader::failureRate()`:
`float(failureCount_) / float(readCount_) * 100.0f`. -/
def failureRate (s : DHTState) : ℚ :=
  (s.failureCount_ : ℚ) / (s.readCount_ : ℚ) * 100

/-- A sequence of `read()` calls, one per environment. -/
def runReads (cfg : DHTConfig) (envs : List LineEnv) (s : DHTState) : DHTState :=
  envs.foldl (fun s env => (read cfg env s).2) s

/-- Bit `j` (most-significant first, `j = 0` the MSB) of a byte. -/
def msbBit (b j : Nat) : Nat := b >>> (7 - j) &&& 1

/-- A synthetic data timing for bit `j` of byte `b`: a count strictly
above the cutoff for a 1 bit, a count (0) at or below it for a 0 bit. -/
def encTiming (cutoff b j : Nat) : Nat :=
  if msbBit b j = 1 then cutoff + 1 else 0

/-- The 16 timings of one byte's window: sync halves (even indices) 0,
data halves (odd indices) the synthetic timing of bits 0..7. -/
def encByteTimings (cutoff b : Nat) : List Nat :=
  [0, encTiming cutoff b 0, 0, encTiming cutoff b 1,
   0, encTiming cutoff b 2, 0, encTiming cutoff b 3,
   0, encTiming cutoff b 4, 0, encTiming cutoff b 5,
   0, encTiming cutoff b 6, 0, encTiming cutoff b 7]

/-- A full synthetic `RawTimings` for the frame `b0 b1 b2 b3 b4`: the 40
data timings sit at the odd indices, byte `k`'s bits at data-timing
indices `8k..8k+7`, most significant bit first. -/
def encodeTimings (cutoff b0 b1 b2 b3 b4 : Nat) : List Nat :=
  encByteTimings cutoff b0 ++ encByteTimings cutoff b1 ++ encByteTimings cutoff b2 ++
  encByteTimings cutoff b3 ++ encByteTimings cutoff b4

/-! ### Helper lemmas -/

theorem and_255_eq_mod (n : Nat) : n &&& 255 = n % 256 := by
  apply Nat.eq_of_testBit_eq
  intro i
  have h : (256 : Nat) = 2 ^ 8 := by norm_num
  have h2 : (255 : Nat) = 2 ^ 8 - 1 := by norm_num
  rw [Nat.testBit_and, h, h2, Nat.testBit_mod_two_pow, Nat.testBit_two_pow_sub_one]
  rcases Nat.lt_or_ge i 8 with hi | hi <;> simp [hi, Nat.not_lt_of_ge hi]

/-- The capture loop only writes `timings_`. -/
theorem readTimingsLoop_frame (cfg : DHTConfig) (env : LineEnv) :
    ∀ (is : List Nat) (s : DHTState),
      ((readTimingsLoop cfg env is s).2).data_ = s.data_ ∧
      ((readTimingsLoop cfg env is s).2).temp_ = s.temp_ ∧
      ((readTimingsLoop cfg env is s).2).humidity_ = s.humidity_ ∧
      ((readTimingsLoop cfg env is s).2).readCount_ = s.readCount_ ∧
      ((readTimingsLoop cfg env is s).2).failureCount_ = s.failureCount_ ∧
      ((readTimingsLoop cfg env is s).2).timings_.length = s.timings_.length := by
  intro is
  induction is with
  | nil => intro s; simp [readTimingsLoop]
  | cons i is ih =>
    intro s
    simp only [readTimingsLoop]
    split
    · simp
    · simpa using ih ⟨s.timings_.set i (waitForState cfg.timeoutCycles (env.delays.getD i 0) % 65536),
        s.data_, s.temp_, s.humidity_, s.readCount_, s.failureCount_⟩

/-- `readTimings` only writes `timings_`. -/
theorem readTimings_frame (cfg : DHTConfig) (env : LineEnv) (s : DHTState) :
    ((readTimings cfg env s).2).data_ = s.data_ ∧
    ((readTimings cfg env s).2).temp_ = s.temp_ ∧
    ((readTimings cfg env s).2).humidity_ = s.humidity_ ∧
    ((readTimings cfg env s).2).readCount_ = s.readCount_ ∧
    ((readTimings cfg env s).2).failureCount_ = s.failureCount_ := by
  unfold readTimings
  split
  · simp
  · have h := readTimingsLoop_frame cfg env timingIndices s
    exact ⟨h.1, h.2.1, h.2.2.1, h.2.2.2.1, h.2.2.2.2.1⟩

/-- The decode loop only writes `data_`. -/
theorem reconstructLoop_frame (cfg : DHTConfig) :
    ∀ (is : List Nat) (s : DHTState),
      (reconstructLoop cfg is s).timings_ = s.timings_ ∧
      (reconstructLoop cfg is s).temp_ = s.temp_ ∧
      (reconstructLoop cfg is s).humidity_ = s.humidity_ ∧
      (reconstructLoop cfg is s).readCount_ = s.readCount_ ∧
      (reconstructLoop cfg is s).failureCount_ = s.failureCount_ := by
  intro is
  induction is with
  | nil => intro s; simp [reconstructLoop]
  | cons i is ih =>
    intro s
    simp only [reconstructLoop]
    simpa using ih _

/-- `parseData` only writes `temp_` and `humidity_`; in every outcome the
state is either untouched or the DHT11/DHT22 value assignment. -/
theorem parseData_frame (cfg : DHTConfig) (s : DHTState) :
    ((parseData cfg s).2).timings_ = s.timings_ ∧
    ((parseData cfg s).2).data_ = s.data_ ∧
    ((parseData cfg s).2).readCount_ = s.readCount_ ∧
    ((parseData cfg s).2).failureCount_ = s.failureCount_ := by
  simp only [parseData]
  split_ifs <;> simp

/-- `readE` (the pipeline without statistics) never changes the
counters. -/
theorem readE_counts (cfg : DHTConfig) (env : LineEnv) (s : DHTState) :
    ((readE cfg env s).2).readCount_ = s.readCount_ ∧
    ((readE cfg env s).2).failureCount_ = s.failureCount_ := by
  unfold readE
  rcases hRT : readTimings cfg env (resetState s) with ⟨e, s1⟩
  have hf : s1.readCount_ = s.readCount_ ∧ s1.failureCount_ = s.failureCount_ := by
    have h := readTimings_frame cfg env (resetState s)
    rw [hRT] at h
    exact ⟨h.2.2.2.1, h.2.2.2.2⟩
  rcases e with _ | e
  · dsimp only
    have hpd := parseData_frame cfg (reconstructDataFromTimings cfg s1)
    have hrec := reconstructLoop_frame cfg dataIndices s1
    rw [hpd.2.2.1, hpd.2.2.2]
    unfold reconstructDataFromTimings
    rw [hrec.2.2.2.1, hrec.2.2.2.2]
    exact hf
  · dsimp only
    exact hf

/-- `read()` always increments `readCount_` by one modulo `2 ^ 32`. -/
theorem read_readCount (cfg : DHTConfig) (env : LineEnv) (s : DHTState) :
    ((read cfg env s).2).readCount_ = (s.readCount_ + 1) % 2 ^ 32 := by
  simp only [read]
  rcases hE : readE cfg env { s with readCount_ := (s.readCount_ + 1) % 2 ^ 32 } with ⟨e, s2⟩
  have h2 : s2.readCount_ = (s.readCount_ + 1) % 2 ^ 32 := by
    have h := (readE_counts cfg env { s with readCount_ := (s.readCount_ + 1) % 2 ^ 32 }).1
    rw [hE] at h
    exact h
  rcases e with _ | e <;> dsimp only <;> exact h2

/-- `read()` bumps `failureCount_` (mod `2 ^ 32`) exactly on failure. -/
theorem read_failureCount (cfg : DHTConfig) (env : LineEnv) (s : DHTState) :
    (((read cfg env s).1 = false →
        ((read cfg env s).2).failureCount_ = (s.failureCount_ + 1) % 2 ^ 32) ∧
     ((read cfg env s).1 = true →
        ((read cfg env s).2).failureCount_ = s.failureCount_)) := by
  simp only [read]
  rcases hE : readE cfg env { s with readCount_ := (s.readCount_ + 1) % 2 ^ 32 } with ⟨e, s2⟩
  have h2 : s2.failureCount_ = s.failureCount_ := by
    have h := (readE_counts cfg env { s with readCount_ := (s.readCount_ + 1) % 2 ^ 32 }).2
    rw [hE] at h
    exact h
  rcases e with _ | e
  · dsimp only
    constructor
    · intro hfalse; simp at hfalse
    · intro _; exact h2
  · dsimp only
    constructor
    · intro _
      rw [h2]
    · intro htrue; simp at htrue

theorem and_127_eq_mod (n : Nat) : n &&& 127 = n % 128 := by
  apply Nat.eq_of_testBit_eq
  intro i
  have h : (128 : Nat) = 2 ^ 7 := by norm_num
  have h2 : (127 : Nat) = 2 ^ 7 - 1 := by norm_num
  rw [Nat.testBit_and, h, h2, Nat.testBit_mod_two_pow, Nat.testBit_two_pow_sub_one]
  rcases Nat.lt_or_ge i 7 with hi | hi <;> simp [hi, Nat.not_lt_of_ge hi]

theorem xor_one_shiftLeft_ne (d k : Nat) : d ^^^ 1 <<< k ≠ d := by
  intro h
  have h2 : d ^^^ (d ^^^ 1 <<< k) = d ^^^ d := by rw [h]
  rw [Nat.xor_cancel_left, Nat.xor_self] at h2
  have := Nat.two_pow_pos k
  rw [Nat.one_shiftLeft] at h2
  omega

/-! ### Concrete fixtures used by witnesses and counterexamples -/

/-- A DHT11 reader at default clock scale, pin 4. -/
def cfgD : DHTConfig := mkConfig DHTType.DHT11 4

/-- A DHT22 reader at default clock scale, pin 4. -/
def cfg22 : DHTConfig := mkConfig DHTType.DHT22 4

/-- The spec's DHT11 example frame `[50, 0, 25, 0, 75]`. -/
def ex11 : DHTState := { initState with data_ := [50, 0, 25, 0, 75] }

/-- The spec's DHT22 example frame `[0x01, 0xF4, 0x00, 0xCB, 0xC0]`. -/
def ex22 : DHTState := { initState with data_ := [1, 244, 0, 203, 192] }

/-- A checksum-valid DHT22 frame with bit 7 of byte 2 set
(`0x80`, magnitude bytes giving -20.3): `(1+244+128+203) % 256 = 64`. -/
def exNeg : DHTState := { initState with data_ := [1, 244, 128, 203, 64] }

/-- A frame with a wrong check byte: `(1+2+3+4) % 256 = 10 ≠ 5`. -/
def exBadFrame : DHTState := { initState with data_ := [1, 2, 3, 4, 5] }

/-- A checksum-valid DHT22 frame decoding far out of range:
humidity 5120.0, temperature 256.0; `(200+0+10+0) % 256 = 210`. -/
def exRange : DHTState := { initState with data_ := [200, 0, 10, 0, 210] }

/-! ### Claims -/

/-- Claim C3: the Frame Validator accepts a 5-byte frame exactly when
`byte4 = (byte0 + byte1 + byte2 + byte3) % 256`; on any frame breaking
the equality `parseData` rejects with ChecksumMismatch leaving the state
untouched, and in particular flipping any single bit of byte 4 of a
valid frame breaks the equality and is rejected. -/
theorem c3_frame_validator (cfg : DHTConfig) (s : DHTState) :
    ((parseData cfg s).1 ≠ some DHTError.ChecksumMismatch ↔
      s.data_.getD 4 0 =
        (s.data_.getD 0 0 + s.data_.getD 1 0 + s.data_.getD 2 0 + s.data_.getD 3 0) % 256) ∧
    (s.data_.getD 4 0 ≠
        (s.data_.getD 0 0 + s.data_.getD 1 0 + s.data_.getD 2 0 + s.data_.getD 3 0) % 256 →
      parseData cfg s = (some DHTError.ChecksumMismatch, s)) ∧
    (∀ d0 d1 d2 d3 d4 k : Nat, k < 8 → d4 = (d0 + d1 + d2 + d3) % 256 →
      parseData cfg { s with data_ := [d0, d1, d2, d3, d4 ^^^ 1 <<< k] } =
        (some DHTError.ChecksumMismatch, { s with data_ := [d0, d1, d2, d3, d4 ^^^ 1 <<< k] })) := by
  have hmod : (s.data_.getD 0 0 + s.data_.getD 1 0 + s.data_.getD 2 0 + s.data_.getD 3 0) &&& 255
      = (s.data_.getD 0 0 + s.data_.getD 1 0 + s.data_.getD 2 0 + s.data_.getD 3 0) % 256 :=
    and_255_eq_mod _
  refine ⟨?_, ?_, ?_⟩
  · constructor
    · intro hne
      by_contra hcs
      have hrej : parseData cfg s = (some DHTError.ChecksumMismatch, s) := by
        simp only [parseData]
        rw [hmod, if_pos hcs]
      rw [hrej] at hne
      exact hne rfl
    · intro h
      simp only [parseData]
      rw [hmod, if_neg (not_not_intro h)]
      split_ifs <;> simp
  · intro h
    simp only [parseData]
    rw [hmod, if_pos h]
  · intro d0 d1 d2 d3 d4 k hk hsum
    have hne : d4 ^^^ 1 <<< k ≠ d4 := xor_one_shiftLeft_ne d4 k
    simp only [parseData, List.getD_cons_zero, List.getD_cons_succ]
    rw [and_255_eq_mod]
    rw [if_pos (by rw [← hsum]; exact hne)]

/-- Witness for C3: the concrete frame `[1,2,3,4,5]` breaks the checksum
equality and is rejected. -/
theorem c3_witness :
    parseData cfgD exBadFrame = (some DHTError.ChecksumMismatch, exBadFrame) :=
  (c3_frame_validator cfgD exBadFrame).2.1 (by decide)


/-- On the DHT22/AM2302 path with a valid checksum, `parseData` stores
the decoded values in `temp_`/`humidity_` (it does so before the range
tests, so this holds whatever the outcome). -/
theorem parseData_dht22_values (cfg : DHTConfig) (s : DHTState)
    (hty : cfg.type_ ≠ DHTType.DHT11) (hck : checksumOk s) :
    ((parseData cfg s).2).temp_ = dht22Temp s ∧
    ((parseData cfg s).2).humidity_ = dht22Humidity s := by
  simp only [parseData]
  have hne : ¬(s.data_.getD 4 0 ≠
      (s.data_.getD 0 0 + s.data_.getD 1 0 + s.data_.getD 2 0 + s.data_.getD 3 0) &&& 255) :=
    not_not_intro hck
  rw [if_neg hne, if_neg hty]
  split_ifs <;> simp

/-- Claim C5: for a checksum-valid frame the Value Interpreter computes,
for DHT11, `humidity = byte0` and `temperature = byte2` with no further
check (the call succeeds outright); for DHT22/AM2302,
`humidity = (byte0*256 + byte1)/10` and a temperature of magnitude
`((byte2 AND 0x7F)*256 + byte3)/10`.  In particular `[50,0,25,0,75]`
under DHT11 gives 50.0 / 25.0 and `[0x01,0xF4,0x00,0xCB,0xC0]` under
DHT22 gives humidity 50.0 and temperature 20.3. -/
theorem c5_value_interpreter :
    (∀ cfg s, cfg.type_ = DHTType.DHT11 → checksumOk s →
      parseData cfg s =
        (none, { s with temp_ := (s.data_.getD 2 0 : ℚ),
                        humidity_ := (s.data_.getD 0 0 : ℚ) })) ∧
    (∀ cfg s, cfg.type_ ≠ DHTType.DHT11 → checksumOk s →
      ((parseData cfg s).2).humidity_ =
        ((s.data_.getD 0 0 * 256 + s.data_.getD 1 0 : ℕ) : ℚ) / 10 ∧
      |((parseData cfg s).2).temp_| =
        (((s.data_.getD 2 0 &&& 127) * 256 + s.data_.getD 3 0 : ℕ) : ℚ) / 10) ∧
    parseData cfgD ex11 = (none, { ex11 with temp_ := 25, humidity_ := 50 }) ∧
    parseData cfg22 ex22 = (none, { ex22 with temp_ := 203 / 10, humidity_ := 50 }) := by
  refine ⟨?_, ?_, by decide, ?_⟩
  · intro cfg s hty hck
    simp only [parseData]
    have hne : ¬(s.data_.getD 4 0 ≠
        (s.data_.getD 0 0 + s.data_.getD 1 0 + s.data_.getD 2 0 + s.data_.getD 3 0) &&& 255) :=
      not_not_intro hck
    rw [if_neg hne, if_pos hty]
  · intro cfg s hty hck
    obtain ⟨ht, hh⟩ := parseData_dht22_values cfg s hty hck
    refine ⟨hh, ?_⟩
    rw [ht]
    have hmag : (0 : ℚ) ≤ dht22TempMagnitude s := by
      unfold dht22TempMagnitude; positivity
    unfold dht22Temp
    split_ifs
    · rw [abs_neg, abs_of_nonneg hmag]
      rfl
    · rw [abs_of_nonneg hmag]
      rfl
  · simp only [parseData, dht22Temp, dht22TempMagnitude, dht22Humidity, ex22, initState,
      cfg22, mkConfig]
    norm_num [and_255_eq_mod, and_127_eq_mod]
    decide

/-- Witness for C5: the DHT11 branch applied to the concrete frame
`[50, 0, 25, 0, 75]`. -/
theorem c5_witness :
    parseData cfgD ex11 =
      (none, { ex11 with temp_ := (ex11.data_.getD 2 0 : ℚ),
                         humidity_ := (ex11.data_.getD 0 0 : ℚ) }) :=
  c5_value_interpreter.1 cfgD ex11 rfl (by decide)

/-- Claim C6: a DHT22/AM2302 frame with bit 7 of byte 2 set and a valid
checksum stores the negated temperature `-(((byte2 AND 0x7F)*256 +
byte3)/10)` in `temp_`.  (If that value is strictly negative the
subsequent range test then rejects the frame; see C7.) -/
theorem c6_negative_temperature (cfg : DHTConfig) (s : DHTState)
    (hty : cfg.type_ ≠ DHTType.DHT11) (hck : checksumOk s)
    (hbit : s.data_.getD 2 0 &&& 128 ≠ 0) :
    ((parseData cfg s).2).temp_ =
      -((((s.data_.getD 2 0 &&& 127) * 256 + s.data_.getD 3 0 : ℕ) : ℚ) / 10) := by
  obtain ⟨ht, _⟩ := parseData_dht22_values cfg s hty hck
  rw [ht]
  unfold dht22Temp
  rw [if_pos hbit]
  rfl

/-- Witness for C6: the concrete frame `[1, 244, 128, 203, 64]`
(byte 2 = 0x80 + 0, checksum 64) stores -20.3. -/
theorem c6_witness :
    ((parseData cfg22 exNeg).2).temp_ =
      -((((exNeg.data_.getD 2 0 &&& 127) * 256 + exNeg.data_.getD 3 0 : ℕ) : ℚ) / 10) :=
  c6_negative_temperature cfg22 exNeg (by decide) (by decide) (by decide)

/-- Claim C7: a checksum-valid DHT22/AM2302 frame whose decoded humidity
or temperature falls outside `[0, 100]` makes `parseData` fail with
RangeError (the freshly decoded values are still stored, the frame is
not used as a reading); the range test is never applied on the DHT11
path, whose `parseData` can never produce RangeError. -/
theorem c7_range_check :
    (∀ cfg s, cfg.type_ ≠ DHTType.DHT11 → checksumOk s →
      (dht22Humidity s < 0 ∨ 100 < dht22Humidity s ∨
       dht22Temp s < 0 ∨ 100 < dht22Temp s) →
      parseData cfg s =
        (some DHTError.RangeError,
         { s with temp_ := dht22Temp s, humidity_ := dht22Humidity s })) ∧
    (∀ cfg s, cfg.type_ = DHTType.DHT11 →
      (parseData cfg s).1 ≠ some DHTError.RangeError) := by
  constructor
  · intro cfg s hty hck hout
    simp only [parseData]
    have hne : ¬(s.data_.getD 4 0 ≠
        (s.data_.getD 0 0 + s.data_.getD 1 0 + s.data_.getD 2 0 + s.data_.getD 3 0) &&& 255) :=
      not_not_intro hck
    rw [if_neg hne, if_neg hty]
    by_cases h1 : dht22Temp s < 0 ∨ 100 < dht22Temp s
    · rw [if_pos h1]
    · rw [if_neg h1, if_pos (by tauto)]
  · intro cfg s hty
    simp only [parseData]
    split_ifs <;> simp_all

/-- Witness for C7: the checksum-valid DHT22 frame `[200, 0, 10, 0, 210]`
decodes to humidity 5120.0 and temperature 256.0, both out of range. -/
theorem c7_witness :
    parseData cfg22 exRange =
      (some DHTError.RangeError,
       { exRange with temp_ := dht22Temp exRange, humidity_ := dht22Humidity exRange }) :=
  c7_range_check.1 cfg22 exRange (by decide) (by decide)
    (by norm_num [dht22Humidity, dht22Temp, dht22TempMagnitude, exRange, initState,
          and_127_eq_mod])


theorem getD_set_self (l : List Nat) (i v : Nat) (h : i < l.length) :
    (l.set i v).getD i 0 = v := by
  simp [List.getD, List.getElem?_set_eq_of_lt, h]

theorem getD_set_ne (l : List Nat) (i j v : Nat) (h : i ≠ j) :
    (l.set i v).getD j 0 = l.getD j 0 := by
  simp [List.getD, List.getElem?_set_ne h]

/-- An environment whose sensor never responds: the acknowledgement loop
runs its full 200000 polls (`count == timeout`), so the read fails with
AckTimeout before any timing is captured. -/
def envBad : LineEnv := ⟨200000, []⟩

/-- An environment where every wait completes on the first poll: all 80
stored timings are 0, every data bit decodes to 0, the frame is
`[0,0,0,0,0]` (checksum valid), so a DHT11 read succeeds with both
values decoded as 0. -/
def envGood0 : LineEnv := ⟨0, List.replicate 80 0⟩

/-- Claim C9: the accessors demand a strictly positive stored value, not
merely a past Success: whenever the stored temperature (resp. humidity)
is 0 — in the freshly constructed state, after a Failed read (which
resets it to 0), and even after a Success that decoded the value 0 —
`celsius()` (resp. `humidity()`) fails its `assert(. > 0.0f)` instead of
returning a value. -/
theorem c9_accessor_asserts :
    (∀ s : DHTState, s.temp_ = 0 → celsius s = none) ∧
    (∀ s : DHTState, s.humidity_ = 0 → humidity s = none) ∧
    (celsius initState = none ∧ humidity initState = none) ∧
    (∀ s : DHTState, (read cfgD envBad s).1 = false ∧
       celsius ((read cfgD envBad s).2) = none ∧
       humidity ((read cfgD envBad s).2) = none) ∧
    ((read cfgD envGood0 initState).1 = true ∧
     celsius ((read cfgD envGood0 initState).2) = none ∧
     humidity ((read cfgD envGood0 initState).2) = none) := by
  refine ⟨?_, ?_, by decide, ?_, by decide⟩
  · intro s h; simp [celsius, h]
  · intro s h; simp [humidity, h]
  · intro s; exact ⟨rfl, rfl, rfl⟩

/-- Witness for C9: the freshly constructed reader state holds
temperature 0 and `celsius()` aborts on it. -/
theorem c9_witness : celsius initState = none :=
  c9_accessor_asserts.1 initState rfl

/-- Whenever the pipeline fails, the values it leaves behind are the
reset zeros — or, only in the RangeError case, the freshly decoded
out-of-range pair.  The pre-call reading never survives. -/
theorem readE_failed_values (cfg : DHTConfig) (env : LineEnv) (s : DHTState)
    (e : DHTError) (s2 : DHTState) (hE : readE cfg env s = (some e, s2)) :
    (s2.temp_ = 0 ∧ s2.humidity_ = 0) ∨
    (s2.temp_ < 0 ∨ 100 < s2.temp_ ∨ s2.humidity_ < 0 ∨ 100 < s2.humidity_) := by
  unfold readE at hE
  rcases hRT : readTimings cfg env (resetState s) with ⟨e1, s1⟩
  have hfr := readTimings_frame cfg env (resetState s)
  rw [hRT] at hE hfr
  have h1t : s1.temp_ = 0 := hfr.2.1
  have h1h : s1.humidity_ = 0 := hfr.2.2.1
  rcases e1 with _ | e1
  · dsimp only at hE
    have hrec := reconstructLoop_frame cfg dataIndices s1
    have h2t : (reconstructDataFromTimings cfg s1).temp_ = 0 := by
      unfold reconstructDataFromTimings; rw [hrec.2.1]; exact h1t
    have h2h : (reconstructDataFromTimings cfg s1).humidity_ = 0 := by
      unfold reconstructDataFromTimings; rw [hrec.2.2.1]; exact h1h
    generalize hs3 : reconstructDataFromTimings cfg s1 = s3 at hE h2t h2h
    simp only [parseData] at hE
    split_ifs at hE with hc hd hr1 hr2
    · cases hE
      exact .inl ⟨h2t, h2h⟩
    · cases hE
    · cases hE
      right
      rcases hr1 with h | h
      · exact .inl h
      · exact .inr (.inl h)
    · cases hE
      right
      rcases hr2 with h | h
      · exact .inr (.inr (.inl h))
      · exact .inr (.inr (.inr h))
    · cases hE
  · dsimp only at hE
    cases hE
    exact .inl ⟨h1t, h1h⟩

/-- Claim C1 (amended): a `read()` that returns false does not retain the
previous Reading — `reset()` zeroes `temp_`/`humidity_` at the start of
every call, so after a Failed call they hold 0, except on the RangeError
path where they hold the freshly decoded out-of-range values. -/
theorem c1_failed_read_resets (cfg : DHTConfig) (env : LineEnv) (s : DHTState)
    (h : (read cfg env s).1 = false) :
    (((read cfg env s).2).temp_ = 0 ∧ ((read cfg env s).2).humidity_ = 0) ∨
    (((read cfg env s).2).temp_ < 0 ∨ 100 < ((read cfg env s).2).temp_ ∨
     ((read cfg env s).2).humidity_ < 0 ∨ 100 < ((read cfg env s).2).humidity_) := by
  revert h
  simp only [read]
  rcases hE : readE cfg env { s with readCount_ := (s.readCount_ + 1) % 2 ^ 32 } with ⟨e, s2⟩
  rcases e with _ | e
  · intro h; simp at h
  · intro _
    dsimp only
    exact readE_failed_values cfg env _ e s2 hE

/-- An environment delivering the DHT11 frame `[50, 0, 25, 0, 75]`
(temperature 25, humidity 50) through synthetic timings. -/
def envGood50 : LineEnv := ⟨0, encodeTimings 180 50 0 25 0 75⟩

/-- The reader state after one successful 25-degree read. -/
def sAfterGood : DHTState := (read cfgD envGood50 initState).2

/-- Counterexample to C1 as stated: after a Success storing 25 C / 50 %,
a Failed call (sensor not acknowledging) zeroes both stored values
instead of leaving them unchanged. -/
theorem c1_counterexample :
    sAfterGood.temp_ = 25 ∧ sAfterGood.humidity_ = 50 ∧
    (read cfgD envBad sAfterGood).1 = false ∧
    ((read cfgD envBad sAfterGood).2).temp_ ≠ sAfterGood.temp_ ∧
    ((read cfgD envBad sAfterGood).2).humidity_ ≠ sAfterGood.humidity_ := by
  decide

/-- Witness for C1 (amended): a concrete failed read ends with both
stored values equal to 0. -/
theorem c1_witness :
    ((((read cfgD envBad initState).2).temp_ = 0 ∧
      ((read cfgD envBad initState).2).humidity_ = 0) ∨
     (((read cfgD envBad initState).2).temp_ < 0 ∨
      100 < ((read cfgD envBad initState).2).temp_ ∨
      ((read cfgD envBad initState).2).humidity_ < 0 ∨
      100 < ((read cfgD envBad initState).2).humidity_)) :=
  c1_failed_read_resets cfgD envBad initState (by decide)


/-- One `read()` in the never-acknowledging environment: it fails with
AckTimeout, resets the buffers and values, and bumps both counters. -/
theorem envBad_read (cfg : DHTConfig) (s : DHTState) :
    read cfg envBad s =
      (false,
       ⟨List.replicate 80 0, List.replicate 5 0, 0, 0,
        (s.readCount_ + 1) % 2 ^ 32, (s.failureCount_ + 1) % 2 ^ 32⟩) := rfl

theorem runReads_replicate_envBad (cfg : DHTConfig) :
    ∀ (n : Nat) (s : DHTState), s.readCount_ < 2 ^ 32 → s.failureCount_ < 2 ^ 32 →
      (runReads cfg (List.replicate n envBad) s).readCount_ = (s.readCount_ + n) % 2 ^ 32 ∧
      (runReads cfg (List.replicate n envBad) s).failureCount_ =
        (s.failureCount_ + n) % 2 ^ 32 := by
  intro n
  induction n with
  | zero =>
    intro s h1 h2
    constructor
    · show s.readCount_ = (s.readCount_ + 0) % 2 ^ 32
      rw [Nat.add_zero]
      exact (Nat.mod_eq_of_lt h1).symm
    · show s.failureCount_ = (s.failureCount_ + 0) % 2 ^ 32
      rw [Nat.add_zero]
      exact (Nat.mod_eq_of_lt h2).symm
  | succ n ih =>
    intro s h1 h2
    have hM : (0 : Nat) < 2 ^ 32 := by norm_num
    have hstep : runReads cfg (List.replicate (n + 1) envBad) s
        = runReads cfg (List.replicate n envBad) ((read cfg envBad s).2) := by
      rw [List.replicate_succ]
      rfl
    have h := ih ((read cfg envBad s).2)
      (by rw [envBad_read]; exact Nat.mod_lt _ hM)
      (by rw [envBad_read]; exact Nat.mod_lt _ hM)
    rw [hstep]
    constructor
    · rw [h.1, envBad_read]
      show ((s.readCount_ + 1) % 2 ^ 32 + n) % 2 ^ 32 = _
      rw [Nat.mod_add_mod]
      congr 1
      omega
    · rw [h.2, envBad_read]
      show ((s.failureCount_ + 1) % 2 ^ 32 + n) % 2 ^ 32 = _
      rw [Nat.mod_add_mod]
      congr 1
      omega

/-- The full state after `n + 1` consecutive reads in the
never-acknowledging environment: zeroed buffers and values, counters
advanced by `n + 1` modulo `2 ^ 32`. -/
theorem runReads_replicate_envBad_state (cfg : DHTConfig) :
    ∀ (n : Nat) (s : DHTState),
      runReads cfg (List.replicate (n + 1) envBad) s =
        ⟨List.replicate 80 0, List.replicate 5 0, 0, 0,
         (s.readCount_ + (n + 1)) % 2 ^ 32, (s.failureCount_ + (n + 1)) % 2 ^ 32⟩ := by
  intro n
  induction n with
  | zero => intro s; rfl
  | succ n ih =>
    intro s
    have hstep : runReads cfg (List.replicate (n + 1 + 1) envBad) s
        = runReads cfg (List.replicate (n + 1) envBad) ((read cfg envBad s).2) := by
      rw [List.replicate_succ]
      rfl
    rw [hstep, ih, envBad_read]
    simp only [DHTState.mk.injEq]
    refine ⟨trivial, trivial, trivial, trivial, ?_, ?_⟩
    · show ((s.readCount_ + 1) % 2 ^ 32 + (n + 1)) % 2 ^ 32 = _
      rw [Nat.mod_add_mod]
      congr 1
      omega
    · show ((s.failureCount_ + 1) % 2 ^ 32 + (n + 1)) % 2 ^ 32 = _
      rw [Nat.mod_add_mod]
      congr 1
      omega

/-- Counter evolution of an arbitrary call sequence: `readCount_` adds
the number of calls (mod `2 ^ 32`) and `failureCount_` adds the number
of failures among them. -/
theorem runReads_counts (cfg : DHTConfig) :
    ∀ (envs : List LineEnv) (s : DHTState),
      s.readCount_ < 2 ^ 32 → s.failureCount_ < 2 ^ 32 →
      ∃ k, k ≤ envs.length ∧
        (runReads cfg envs s).readCount_ = (s.readCount_ + envs.length) % 2 ^ 32 ∧
        (runReads cfg envs s).failureCount_ = (s.failureCount_ + k) % 2 ^ 32 := by
  intro envs
  induction envs with
  | nil =>
    intro s h1 h2
    refine ⟨0, Nat.zero_le _, ?_, ?_⟩
    · show s.readCount_ = (s.readCount_ + 0) % 2 ^ 32
      rw [Nat.add_zero]
      exact (Nat.mod_eq_of_lt h1).symm
    · show s.failureCount_ = (s.failureCount_ + 0) % 2 ^ 32
      rw [Nat.add_zero]
      exact (Nat.mod_eq_of_lt h2).symm
  | cons env envs ih =>
    intro s h1 h2
    have hM : (0 : Nat) < 2 ^ 32 := by norm_num
    have hstep : runReads cfg (env :: envs) s = runReads cfg envs ((read cfg env s).2) := rfl
    have hrc := read_readCount cfg env s
    have hfc := read_failureCount cfg env s
    rcases hb : (read cfg env s).1 with _ | _
    · obtain ⟨k, hk, ha, haf⟩ := ih ((read cfg env s).2)
        (by rw [hrc]; exact Nat.mod_lt _ hM)
        (by rw [hfc.1 hb]; exact Nat.mod_lt _ hM)
      refine ⟨k + 1, by simp only [List.length_cons]; omega, ?_, ?_⟩
      · rw [hstep, ha, hrc, Nat.mod_add_mod, List.length_cons]
        congr 1
        omega
      · rw [hstep, haf, hfc.1 hb, Nat.mod_add_mod]
        congr 1
        omega
    · obtain ⟨k, hk, ha, haf⟩ := ih ((read cfg env s).2)
        (by rw [hrc]; exact Nat.mod_lt _ hM)
        (by rw [hfc.2 hb]; exact h2)
      refine ⟨k, by simp only [List.length_cons]; omega, ?_, ?_⟩
      · rw [hstep, ha, hrc, Nat.mod_add_mod, List.length_cons]
        congr 1
        omega
      · rw [hstep, haf, hfc.2 hb]

/-- Claim C8 (amended): `readCount_` increments by 1 modulo `2 ^ 32` on
every call and `failureCount_` increments exactly on Failed calls; for
every sequence of fewer than `2 ^ 32` calls from construction,
`failureCount_ ≤ readCount_` holds, and `failureRate()` lies in
`[0, 100]` whenever `readCount_ > 0` with `failureCount_ ≤ readCount_`,
non-decreasing in `failureCount_` for a fixed `readCount_`. -/
theorem c8_statistics (cfg : DHTConfig) :
    (∀ env s, ((read cfg env s).2).readCount_ = (s.readCount_ + 1) % 2 ^ 32) ∧
    (∀ env s, (((read cfg env s).1 = false →
        ((read cfg env s).2).failureCount_ = (s.failureCount_ + 1) % 2 ^ 32) ∧
      ((read cfg env s).1 = true →
        ((read cfg env s).2).failureCount_ = s.failureCount_))) ∧
    (∀ envs : List LineEnv, envs.length < 2 ^ 32 →
      (runReads cfg envs initState).failureCount_ ≤
        (runReads cfg envs initState).readCount_) ∧
    (∀ s : DHTState, 0 < s.readCount_ → s.failureCount_ ≤ s.readCount_ →
      0 ≤ failureRate s ∧ failureRate s ≤ 100) ∧
    (∀ (s : DHTState) (f1 f2 : Nat), 0 < s.readCount_ → f1 ≤ f2 →
      failureRate { s with failureCount_ := f1 } ≤
        failureRate { s with failureCount_ := f2 }) := by
  refine ⟨read_readCount cfg, read_failureCount cfg, ?_, ?_, ?_⟩
  · intro envs hlen
    obtain ⟨k, hk, ha, hb⟩ := runReads_counts cfg envs initState
      (by norm_num [initState]) (by norm_num [initState])
    rw [ha, hb]
    have h0 : initState.readCount_ = 0 := rfl
    have h0f : initState.failureCount_ = 0 := rfl
    rw [h0, h0f, Nat.zero_add, Nat.zero_add,
      Nat.mod_eq_of_lt hlen, Nat.mod_eq_of_lt (lt_of_le_of_lt hk hlen)]
    exact hk
  · intro s hrc hle
    unfold failureRate
    constructor
    · positivity
    · have hratio : (s.failureCount_ : ℚ) / (s.readCount_ : ℚ) ≤ 1 := by
        rw [div_le_one (by exact_mod_cast hrc)]
        exact_mod_cast hle
      nlinarith [hratio]
  · intro s f1 f2 hrc hle
    unfold failureRate
    dsimp only
    have h2 : (0 : ℚ) < (s.readCount_ : ℚ) := by exact_mod_cast hrc
    gcongr

/-- A sequence of `2 ^ 32` calls that wraps the 32-bit `readCount_`:
`2 ^ 32 - 1` failing reads, then one success. -/
def envsWrap : List LineEnv := List.replicate (2 ^ 32 - 1) envBad ++ [envGood0]

/-- Counterexample to C8 as stated over all sequences: after `2 ^ 32`
calls of which the last succeeds, `readCount_` has wrapped to 0 while
`failureCount_` is `2 ^ 32 - 1`, so `failureCount_ ≤ readCount_` fails. -/
theorem runReads_append (cfg : DHTConfig) (l1 l2 : List LineEnv) (s : DHTState) :
    runReads cfg (l1 ++ l2) s = runReads cfg l2 (runReads cfg l1 s) :=
  List.foldl_append _ _ _ _

theorem runReads_singleton (cfg : DHTConfig) (env : LineEnv) (s : DHTState) :
    runReads cfg [env] s = (read cfg env s).2 := rfl

theorem c8_counterexample :
    ¬ ((runReads cfgD envsWrap initState).failureCount_ ≤
       (runReads cfgD envsWrap initState).readCount_) := by
  have hbig : runReads cfgD (List.replicate (2 ^ 32 - 1) envBad) initState =
      ⟨List.replicate 80 0, List.replicate 5 0, 0, 0, 4294967295, 4294967295⟩ := by
    rw [show (2 ^ 32 - 1 : Nat) = 4294967294 + 1 by norm_num,
      runReads_replicate_envBad_state]
    norm_num [initState]
  rw [show envsWrap = List.replicate (2 ^ 32 - 1) envBad ++ [envGood0] from rfl,
      runReads_append, runReads_singleton, hbig]
  decide

/-- Witness for C8 (amended): a one-call sequence satisfies the
invariant. -/
theorem c8_witness :
    (runReads cfgD [envBad] initState).failureCount_ ≤
      (runReads cfgD [envBad] initState).readCount_ :=
  (c8_statistics cfgD).2.2.1 [envBad] (by norm_num)


/-- Environment where every even-indexed (sync) wait runs into the
timeout bound `timeoutCycles() = 100000` and every data wait completes
on its first poll. -/
def envTimeoutSyncs : LineEnv :=
  ⟨0, (List.range 80).map fun i => if i % 2 = 0 then 100000 else 0⟩

/-- Claim C2 (code bug): at the default clock scale a wait that reaches
the bound `timeoutCycles() = 100000` is not detected.  The returned
counter 100000 is truncated to `100000 % 65536 = 34464` by the
`uint16_t` slot, the test `timings_[i] == timeoutCycles()` compares
34464 with 100000 and is false, so the capture continues through all 80
waits and the read here even returns Success with `failureCount_`
untouched — the claimed immediate BitTimeout failure never happens. -/
theorem c2_timeout_not_detected :
    waitForState cfgD.timeoutCycles (envTimeoutSyncs.delays.getD 0 0) = cfgD.timeoutCycles ∧
    ((read cfgD envTimeoutSyncs initState).2).timings_.getD 0 0 = 34464 ∧
    (read cfgD envTimeoutSyncs initState).1 = true ∧
    ((read cfgD envTimeoutSyncs initState).2).readCount_ = 1 ∧
    ((read cfgD envTimeoutSyncs initState).2).failureCount_ = 0 := by
  decide

/-- With a timeout bound above 65535 the capture loop can never report
BitTimeout: the stored 16-bit value is at most 65535. -/
theorem readTimingsLoop_no_bitTimeout (cfg : DHTConfig) (env : LineEnv)
    (h : 65535 < cfg.timeoutCycles) :
    ∀ (is : List Nat) (s : DHTState),
      (readTimingsLoop cfg env is s).1 ≠ some DHTError.BitTimeout := by
  intro is
  induction is with
  | nil => intro s; simp [readTimingsLoop]
  | cons i is ih =>
    intro s
    simp only [readTimingsLoop]
    split
    · next heq =>
      exfalso
      have hlt : waitForState cfg.timeoutCycles (env.delays.getD i 0) % 65536 < 65536 :=
        Nat.mod_lt _ (by norm_num)
      omega
    · exact ih _

/-- The capture loop leaves slots outside its index list untouched. -/
theorem readTimingsLoop_unchanged (cfg : DHTConfig) (env : LineEnv) (j : Nat) :
    ∀ (is : List Nat) (s : DHTState), j ∉ is →
      ((readTimingsLoop cfg env is s).2).timings_.getD j 0 = s.timings_.getD j 0 := by
  intro is
  induction is with
  | nil => intro s _; rfl
  | cons i is ih =>
    intro s hj
    rw [List.mem_cons] at hj
    push_neg at hj
    obtain ⟨hne, hj'⟩ := hj
    simp only [readTimingsLoop]
    split
    · exact getD_set_ne _ _ _ _ hne.symm
    · rw [ih _ hj']
      exact getD_set_ne _ _ _ _ hne.symm

/-- When the capture loop completes, every visited slot holds its wait's
counter reduced modulo `2 ^ 16`. -/
theorem readTimingsLoop_stores (cfg : DHTConfig) (env : LineEnv) :
    ∀ (is : List Nat) (s s' : DHTState),
      is.Nodup → (∀ j ∈ is, j < s.timings_.length) →
      readTimingsLoop cfg env is s = (none, s') →
      ∀ j ∈ is, s'.timings_.getD j 0 =
        waitForState cfg.timeoutCycles (env.delays.getD j 0) % 65536 := by
  intro is
  induction is with
  | nil => intro s s' _ _ _ j hj; exact absurd hj (List.not_mem_nil j)
  | cons i is ih =>
    intro s s' hnd hlen hrun j hj
    rw [List.nodup_cons] at hnd
    simp only [readTimingsLoop] at hrun
    split at hrun
    · exact absurd hrun (by simp)
    · rcases List.mem_cons.mp hj with rfl | hj'
      · have hun := readTimingsLoop_unchanged cfg env j is
          ⟨s.timings_.set j (waitForState cfg.timeoutCycles (env.delays.getD j 0) % 65536),
           s.data_, s.temp_, s.humidity_, s.readCount_, s.failureCount_⟩ hnd.1
        rw [hrun] at hun
        rw [hun]
        exact getD_set_self _ _ _ (hlen j (List.mem_cons_self j is))
      · refine ih _ s' hnd.2 ?_ hrun j hj'
        intro k hk
        show k < (s.timings_.set i _).length
        rw [List.length_set]
        exact hlen k (List.mem_cons_of_mem i hk)

/-- Claim C10: each of the 80 timings is stored in a `uint16_t` slot as
the wait's 32-bit counter reduced modulo `2 ^ 16`, while the per-timing
timeout test compares that reduced value for equality with
`timeoutCycles()`; for every bound above 65535 — including the default
`100000 * 1.0` — the equality is unsatisfiable, so the capture can never
fail with BitTimeout. -/
theorem c10_uint16_truncation :
    (∀ tc c : Nat, 65535 < tc → ¬(c % 65536 = tc)) ∧
    ((mkConfig DHTType.DHT11 4).timeoutCycles = 100000 ∧
      65535 < (mkConfig DHTType.DHT11 4).timeoutCycles) ∧
    (∀ (cfg : DHTConfig) (env : LineEnv) (s : DHTState), 65535 < cfg.timeoutCycles →
      (readTimings cfg env s).1 ≠ some DHTError.BitTimeout) ∧
    (∀ (cfg : DHTConfig) (env : LineEnv) (s s' : DHTState),
      s.timings_.length = 80 →
      readTimings cfg env s = (none, s') →
      ∀ j < 80, s'.timings_.getD j 0 =
        waitForState cfg.timeoutCycles (env.delays.getD j 0) % 65536) := by
  refine ⟨?_, ⟨rfl, by norm_num [mkConfig, TimeoutCycles]⟩, ?_, ?_⟩
  · intro tc c h hc
    have h2 : c % 65536 < 65536 := Nat.mod_lt c (by norm_num)
    omega
  · intro cfg env s h
    unfold readTimings
    split
    · simp
    · exact readTimingsLoop_no_bitTimeout cfg env h timingIndices s
  · intro cfg env s s' hlen hrun j hj
    unfold readTimings at hrun
    split at hrun
    · exact absurd hrun (by simp)
    · refine readTimingsLoop_stores cfg env timingIndices s s' ?_ ?_ hrun j ?_
      · simpa [timingIndices, NumTimings] using List.nodup_range 80
      · intro k hk
        rw [hlen]
        simpa [timingIndices, NumTimings] using hk
      · simpa [timingIndices, NumTimings] using hj

/-- Witness for C10: in a concrete completed capture, slot 0 holds the
reduced counter of wait 0. -/
theorem c10_witness :
    ((readTimings cfgD envGood0 (resetState initState)).2).timings_.getD 0 0 =
      waitForState cfgD.timeoutCycles (envGood0.delays.getD 0 0) % 65536 :=
  c10_uint16_truncation.2.2.2 cfgD envGood0 (resetState initState)
    ((readTimings cfgD envGood0 (resetState initState)).2) rfl (by decide) 0 (by norm_num)


theorem encTiming_gt (c b j : Nat) :
    ((if c < encTiming c b j then 1 else 0) : Nat) = msbBit b j := by
  have h : msbBit b j ≤ 1 := Nat.and_le_right
  rcases Nat.le_one_iff_eq_zero_or_eq_one.mp h with h1 | h1 <;>
    simp [encTiming, h1, Nat.lt_add_one]

/-- Shifting the eight MSB-first bits of a byte into an accumulator the
way the decode loop does reproduces the byte. -/
theorem decodeByte_msb : ∀ b < 256,
    ((((((((((((((msbBit b 0 % 256) <<< 1 ||| msbBit b 1) % 256) <<< 1 |||
      msbBit b 2) % 256) <<< 1 ||| msbBit b 3) % 256) <<< 1 |||
      msbBit b 4) % 256) <<< 1 ||| msbBit b 5) % 256) <<< 1 |||
      msbBit b 6) % 256) <<< 1 ||| msbBit b 7) % 256 = b := by
  decide

/-- Claim C4: encoding any 5-byte frame as 40 synthetic data timings at
the odd indices of RawTimings (a 1 bit as a count strictly above
`lowHighCutoff`, a 0 bit as a count below it) and running the Bit
Decoder on a reset (zeroed) data buffer reconstructs exactly the
original bytes — bits are shifted in MSB first with byte index
`bitIndex / 8`, as `encodeTimings` lays them out. -/
theorem c4_roundtrip (cfg : DHTConfig) (b0 b1 b2 b3 b4 : Nat)
    (h0 : b0 < 256) (h1 : b1 < 256) (h2 : b2 < 256) (h3 : b3 < 256) (h4 : b4 < 256) :
    (reconstructDataFromTimings cfg
      { resetState initState with
          timings_ := encodeTimings cfg.lowHighCutoff b0 b1 b2 b3 b4 }).data_
      = [b0, b1, b2, b3, b4] := by
  simp [reconstructDataFromTimings, dataIndices, reconstructLoop, encodeTimings,
    encByteTimings, resetState, initState, encTiming_gt]
  exact ⟨decodeByte_msb b0 h0, decodeByte_msb b1 h1, decodeByte_msb b2 h2,
    decodeByte_msb b3 h3, decodeByte_msb b4 h4⟩

/-- Witness for C4: the round trip on the concrete DHT22 example frame. -/
theorem c4_witness :
    (reconstructDataFromTimings cfg22
      { resetState initState with
          timings_ := encodeTimings cfg22.lowHighCutoff 1 244 0 203 192 }).data_
      = [1, 244, 0, 203, 192] :=
  c4_roundtrip cfg22 1 244 0 203 192 (by decide) (by decide) (by decide) (by decide)
    (by decide)


end DHTReader
